import Mathlib

/-!
Verification development for `rmcom.py`, a Python comment-removal tool.

The pipeline under study is `remove_hash_comments`: read a file, tokenize it,
drop every non-preserved `#` comment token, reassemble the remaining tokens
with `tokenize.untokenize`, normalize line endings, and conditionally write
the result back.  The embedding below follows the source file `src/rmcom.py`
statement by statement; the external lexer (Python's `tokenize` module) is
embedded as follows: `untokenize` is translated concretely from CPython's
`Untokenizer` (full-token mode, the mode exercised by the source), while the
token sequences produced by `tokenize.generate_tokens` for concrete file
contents are supplied as explicit token lists, and general theorems take the
token sequence as a parameter constrained by the Lexer contract of the
specification.

Python string primitives (`startswith`, `in`, `lower`, `strip`, `rstrip`,
`splitlines`) are embedded on `List Char`, with Python's exact whitespace and
line-break character sets; `lower` is embedded for the ASCII range.
-/

namespace Rmcom

/-- Character set of Python's `str.isspace` (also the set stripped by
`str.strip()` and `str.rstrip()`), by code point. -/
def pyIsSpace (c : Char) : Bool :=
  (9 ≤ c.toNat && c.toNat ≤ 13) || (28 ≤ c.toNat && c.toNat ≤ 32) ||
  c.toNat == 0x85 || c.toNat == 0xa0 || c.toNat == 0x1680 ||
  (0x2000 ≤ c.toNat && c.toNat ≤ 0x200a) || c.toNat == 0x2028 ||
  c.toNat == 0x2029 || c.toNat == 0x202f || c.toNat == 0x205f ||
  c.toNat == 0x3000

/-- Character set of Python's `str.splitlines` line boundaries, by code
point (`\r\n` is additionally treated as a single boundary). -/
def pyIsLineBreak (c : Char) : Bool :=
  (10 ≤ c.toNat && c.toNat ≤ 13) || (28 ≤ c.toNat && c.toNat ≤ 30) ||
  c.toNat == 0x85 || c.toNat == 0x2028 || c.toNat == 0x2029

/-- Python `str.lower`, embedded for the ASCII range (the preservation
keywords checked by the source are all ASCII). -/
def pyLowerChar (c : Char) : Char :=
  if 65 ≤ c.toNat ∧ c.toNat ≤ 90 then Char.ofNat (c.toNat + 32) else c

/-- Python `str.lower` on strings. -/
def pyLower (s : String) : String :=
  String.mk (s.data.map pyLowerChar)

/-- Python `s.startswith(pat)`. -/
def pyStartsWith (s pat : String) : Bool :=
  decide (pat.data <+: s.data)

/-- Python `pat in s` (substring containment). -/
def pyContains (s pat : String) : Bool :=
  decide (pat.data <:+: s.data)

/-- Python `s.endswith(pat)`. -/
def pyEndsWith (s pat : String) : Bool :=
  decide (pat.data <:+ s.data)

/-- Python `s.rstrip()` (strip trailing whitespace). -/
def pyRstripWs (s : String) : String :=
  String.mk (s.data.rdropWhile pyIsSpace)

/-- Python `s.rstrip("\n")` (strip trailing newline characters only). -/
def pyRstripNl (s : String) : String :=
  String.mk (s.data.rdropWhile (fun c => c == '\n'))

/-- Python `s.strip()` (strip whitespace at both ends). -/
def pyStrip (s : String) : String :=
  String.mk ((s.data.rdropWhile pyIsSpace).dropWhile pyIsSpace)

/-- Embedding of `is_preserved_comment` (src/rmcom.py, lines 48-56): a
comment is preserved when it starts with `#!`, contains a coding
declaration, is a `# type:` directive after stripping, or contains
`# noqa` case-insensitively. -/
def is_preserved_comment (comment : String) : Bool :=
  let lower_comment := pyLower comment
  pyStartsWith comment "#!" ||
  pyContains comment "# -*- coding:" ||
  pyContains comment "# coding:" ||
  pyStartsWith (pyStrip lower_comment) "# type:" ||
  pyContains lower_comment "# noqa"

/-- Token kinds of Python's `tokenize` module that the source distinguishes
(`COMMENT`, `ENCODING`) together with the kinds `Untokenizer` treats
specially; all remaining kinds behave uniformly. -/
inductive TokType where
  | ENCODING
  | COMMENT
  | NAME
  | OP
  | NUMBER
  | STRING
  | NEWLINE
  | NL
  | INDENT
  | DEDENT
  | ENDMARKER
  deriving DecidableEq, Repr

/-- One `tokenize.TokenInfo` record: kind, exact text, and the
1-indexed (row, column) start and end positions. -/
structure Tok where
  typ : TokType
  str : String
  startRow : Nat
  startCol : Nat
  endRow : Nat
  endCol : Nat
  deriving DecidableEq, Repr

/-- Embedding of the dataclass `CommentRemovalInfo` (src/rmcom.py,
lines 39-44). -/
structure CommentRemovalInfo where
  file_path : String
  line_number : Nat
  comment_text : String
  deriving DecidableEq, Repr

/-- Embedding of the token-filtering loop of `remove_hash_comments`
(src/rmcom.py, lines 123-141): preserved comments and all non-`ENCODING`
tokens are kept in order; every dropped comment yields a removal record
with the token's starting line and its text with trailing newlines
stripped. -/
def filterTokens (file_path : String) : List Tok → List Tok × List CommentRemovalInfo
  | [] => ([], [])
  | t :: rest =>
    let r := filterTokens file_path rest
    if t.typ = TokType.COMMENT then
      if is_preserved_comment t.str then (t :: r.1, r.2)
      else (r.1, ⟨file_path, t.startRow, pyRstripNl t.str⟩ :: r.2)
    else if t.typ = TokType.ENCODING then r
    else (t :: r.1, r.2)

/-- Repetition of a string, Python's `s * n`. -/
def srep (s : String) (n : Nat) : String :=
  String.join (List.replicate n s)

/-- State of CPython's `Untokenizer` (Lib/tokenize.py): accumulated output
pieces, previous end position, indent stack, start-of-line flag. -/
structure UState where
  acc : List String
  prevRow : Nat
  prevCol : Nat
  indents : List String
  startline : Bool
  deriving Repr

/-- CPython `Untokenizer.add_whitespace`: raises `ValueError` when a token
start precedes the previous end; otherwise pads with backslash-newlines for
skipped rows and spaces for skipped columns. -/
def addWhitespace (st : UState) (row col : Nat) : Except Unit UState :=
  if row < st.prevRow ∨ (row = st.prevRow ∧ col < st.prevCol) then Except.error ()
  else
    let st :=
      if row - st.prevRow ≠ 0 then
        { st with acc := st.acc ++ [srep "\\\n" (row - st.prevRow)], prevCol := 0 }
      else st
    if col - st.prevCol ≠ 0 then
      Except.ok { st with acc := st.acc ++ [srep " " (col - st.prevCol)] }
    else Except.ok st

/-- Main loop of CPython `Untokenizer.untokenize` in full-token mode (the
mode exercised by the source, which always passes 5-tuples): `ENCODING`
is recorded without textual effect, `ENDMARKER` stops, `INDENT`/`DEDENT`
maintain the indent stack (`DEDENT` on an empty stack raises), a pending
new line re-emits the current indent, and every other token is emitted
after whitespace padding. -/
def untokLoop : List Tok → UState → Except Unit UState
  | [], st => Except.ok st
  | t :: rest, st =>
    match t.typ with
    | TokType.ENCODING => untokLoop rest st
    | TokType.ENDMARKER => Except.ok st
    | TokType.INDENT => untokLoop rest { st with indents := st.indents ++ [t.str] }
    | TokType.DEDENT =>
      match st.indents with
      | [] => Except.error ()
      | _ :: _ =>
        untokLoop rest
          { st with indents := st.indents.dropLast, prevRow := t.endRow, prevCol := t.endCol }
    | ty =>
      let st :=
        if ty = TokType.NEWLINE ∨ ty = TokType.NL then { st with startline := true }
        else if st.startline ∧ st.indents ≠ [] then
          let indent := st.indents.getLastD ""
          if indent.length ≤ t.startCol then
            { st with acc := st.acc ++ [indent], prevCol := indent.length, startline := false }
          else { st with startline := false }
        else st
      match addWhitespace st t.startRow t.startCol with
      | Except.error e => Except.error e
      | Except.ok st =>
        let st := { st with acc := st.acc ++ [t.str], prevRow := t.endRow, prevCol := t.endCol }
        let st :=
          if ty = TokType.NEWLINE ∨ ty = TokType.NL then
            { st with prevRow := st.prevRow + 1, prevCol := 0 }
          else st
        untokLoop rest st

/-- CPython `tokenize.untokenize` on full 5-tuple tokens, starting from
row 1, column 0; any exception raised inside is an `error`. -/
def untokenize (tokens : List Tok) : Except Unit String :=
  match untokLoop tokens ⟨[], 1, 0, [], false⟩ with
  | Except.error e => Except.error e
  | Except.ok st => Except.ok (String.join st.acc)

/-- Python `str.splitlines` accumulator: `\r\n` is one boundary, every
other line-break character is a boundary of its own, and an unterminated
final line is still emitted. -/
def splitlinesAux : List Char → List Char → List String
  | [], cur => if cur.isEmpty then [] else [String.mk cur.reverse]
  | '\r' :: '\n' :: rest, cur => String.mk cur.reverse :: splitlinesAux rest []
  | c :: rest, cur =>
    if pyIsLineBreak c then String.mk cur.reverse :: splitlinesAux rest []
    else splitlinesAux rest (c :: cur)

/-- Python `str.splitlines()`. -/
def pySplitlines (s : String) : List String :=
  splitlinesAux s.data []

/-- Python `"\n".join(lines)`. -/
def pyJoinNl : List String → String
  | [] => ""
  | [l] => l
  | l :: m :: rest => l ++ "\n" ++ pyJoinNl (m :: rest)

/-- Normalization applied by `remove_hash_comments` to both the
reconstructed and the original text (src/rmcom.py, lines 150-156):
split into lines, strip trailing whitespace from each, join with `\n`
and append one final `\n`. -/
def normalizeText (s : String) : String :=
  pyJoinNl ((pySplitlines s).map pyRstripWs) ++ "\n"

/-- Outcome of the final `open(file_path, "w")` / `file.write` pair
(src/rmcom.py, lines 171-173) at the operating-system level: the open
call itself can raise (file untouched), or the write can fail after the
open already truncated the file, leaving only the first `n` characters
of the new text on disk, or everything succeeds. -/
inductive WriteEvent where
  | openFail
  | failAfter (n : Nat)
  | success
  deriving DecidableEq, Repr

/-- Behaviour of the environment for one `remove_hash_comments` call:
which of the fallible read-stage operations raise (open/read `IOError` or
`OSError`, `UnicodeDecodeError` in `decode`, `SyntaxError` in `compile`,
`TokenError` in `generate_tokens`), and the token sequence produced by
`tokenize.generate_tokens` when tokenization succeeds. -/
structure FileEnv where
  ioErr : Bool
  decodeErr : Bool
  syntaxErr : Bool
  tokenizeErr : Bool
  tokens : List Tok
  deriving Repr

/-- Embedding of `remove_hash_comments` (src/rmcom.py, lines 59-179).
Input: the file path, the file's current on-disk content, the
environment behaviour, and the write outcome.  Output: the function's
return value (`none` for the error paths that return `None`, otherwise
the removal records) paired with the file's on-disk content after the
call.  The branch structure mirrors the source: read-stage failures
return `None` and leave the file alone; an empty removal list returns
early without writing; an `untokenize` failure keeps the original file;
the no-op check skips the write when the normalized reconstruction
equals the normalized original; otherwise the file is opened with mode
"w" (truncation) and the cleaned text is written. -/
def remove_hash_comments (file_path disk : String) (env : FileEnv) (wev : WriteEvent) :
    Option (List CommentRemovalInfo) × String :=
  if env.ioErr then (none, disk)
  else if env.decodeErr then (none, disk)
  else if env.syntaxErr then (none, disk)
  else if env.tokenizeErr then (none, disk)
  else
    let fr := filterTokens file_path env.tokens
    if fr.2 = [] then (some [], disk)
    else
      match untokenize fr.1 with
      | Except.error _ => (some fr.2, disk)
      | Except.ok raw =>
        let cleaned_code := normalizeText raw
        let original_code_normalized := normalizeText disk
        if cleaned_code = original_code_normalized then (some fr.2, disk)
        else
          match wev with
          | WriteEvent.openFail => (some fr.2, disk)
          | WriteEvent.failAfter n => (some fr.2, String.mk (cleaned_code.data.take n))
          | WriteEvent.success => (some fr.2, cleaned_code)

/-- One candidate file of a directory walk: its name (used for the `.py`
filter), on-disk content, environment behaviour and write outcome. -/
structure BatchFile where
  name : String
  disk : String
  env : FileEnv
  wev : WriteEvent

/-- Embedding of `process_directory` (src/rmcom.py, lines 182-228): walk
the candidate files in order, process every name whose lowercase form
ends in ".py", count the files for which `remove_hash_comments` returns
`None`, and concatenate the removal records of all the others. -/
def process_directory : List BatchFile → List CommentRemovalInfo × Nat
  | [] => ([], 0)
  | f :: rest =>
    let r := process_directory rest
    if pyEndsWith (pyLower f.name) ".py" then
      match (remove_hash_comments f.name f.disk f.env f.wev).1 with
      | none => (r.1, r.2 + 1)
      | some info => (info ++ r.1, r.2)
    else r

/-- JSON string escaping as performed by `json.dump` with
`ensure_ascii=False`: backslash, double quote and control characters are
escaped, everything else is emitted literally. -/
def jsonEscapeChar (c : Char) : String :=
  if c = '\\' then "\\\\"
  else if c = '"' then "\\\""
  else if c = '\n' then "\\n"
  else if c = '\r' then "\\r"
  else if c = '\t' then "\\t"
  else if c.toNat = 8 then "\\b"
  else if c.toNat = 12 then "\\f"
  else if c.toNat < 32 then
    "\\u00" ++ String.mk [(Nat.digitChar (c.toNat / 16)), (Nat.digitChar (c.toNat % 16))]
  else String.mk [c]

/-- JSON string literal for `s`. -/
def jsonStr (s : String) : String :=
  "\"" ++ String.join (s.data.map jsonEscapeChar) ++ "\""

/-- One entry of the removal log, as `json.dump` renders
`comment.__dict__` with `indent=4`. -/
def jsonEntry (c : CommentRemovalInfo) : String :=
  "    \x7b\n        \"file_path\": " ++ jsonStr c.file_path ++
  ",\n        \"line_number\": " ++ toString c.line_number ++
  ",\n        \"comment_text\": " ++ jsonStr c.comment_text ++ "\n    \x7d"

/-- Python `json.dump(log_data, log_file, indent=4, ensure_ascii=False)`
for the list of removal records. -/
def jsonDump : List CommentRemovalInfo → String
  | [] => "[]"
  | c :: rest =>
    "[\n" ++ String.intercalate ",\n" ((c :: rest).map jsonEntry) ++ "\n]"

/-- Embedding of `output_removed_comments` (src/rmcom.py, lines 231-271).
Input: the collected records, the log file's current state (`none` when
absent), whether `os.remove` succeeds, and the write outcome for the log
file.  Output: the returned boolean paired with the log file's final
state.  With no records the function deletes any stale log (ignoring a
failed delete) and reports success without writing; otherwise it opens
the log with mode "w" and dumps the records as JSON, reporting failure
on an I/O error. -/
def output_removed_comments (removed_comments_data : List CommentRemovalInfo)
    (log : Option String) (removeOk : Bool) (wev : WriteEvent) : Bool × Option String :=
  if removed_comments_data = [] then
    match log with
    | some c => if removeOk then (true, none) else (true, some c)
    | none => (true, none)
  else
    let dump := jsonDump removed_comments_data
    match wev with
    | WriteEvent.openFail => (false, log)
    | WriteEvent.failAfter n => (false, some (String.mk (dump.data.take n)))
    | WriteEvent.success => (true, some dump)

/-- Token sequence of `tokenize.generate_tokens` for the file content
`print("x")  # drop me\n# also drop\n` (the specification's scenario). -/
def tokensScenario : List Tok :=
  [⟨TokType.NAME, "print", 1, 0, 1, 5⟩,
   ⟨TokType.OP, "(", 1, 5, 1, 6⟩,
   ⟨TokType.STRING, "\"x\"", 1, 6, 1, 9⟩,
   ⟨TokType.OP, ")", 1, 9, 1, 10⟩,
   ⟨TokType.COMMENT, "# drop me", 1, 12, 1, 21⟩,
   ⟨TokType.NEWLINE, "\n", 1, 21, 1, 22⟩,
   ⟨TokType.COMMENT, "# also drop", 2, 0, 2, 11⟩,
   ⟨TokType.NL, "\n", 2, 11, 2, 12⟩,
   ⟨TokType.ENDMARKER, "", 3, 0, 3, 0⟩]

/-- Environment with no read-stage failures and the given token
sequence. -/
def okEnv (tokens : List Tok) : FileEnv :=
  ⟨false, false, false, false, tokens⟩

/-- Token sequence of `tokenize.generate_tokens` for the CRLF-terminated
file content `x = 1  # c\r\n`. -/
def tokensCrlf : List Tok :=
  [⟨TokType.NAME, "x", 1, 0, 1, 1⟩,
   ⟨TokType.OP, "=", 1, 2, 1, 3⟩,
   ⟨TokType.NUMBER, "1", 1, 4, 1, 5⟩,
   ⟨TokType.COMMENT, "# c", 1, 7, 1, 10⟩,
   ⟨TokType.NEWLINE, "\r\n", 1, 10, 1, 12⟩,
   ⟨TokType.ENDMARKER, "", 2, 0, 2, 0⟩]

/-- Token sequence of `tokenize.generate_tokens` for the file content
`x = 1\n#!later\n`, whose second line is a `#!` comment. -/
def tokensShebangLater : List Tok :=
  [⟨TokType.NAME, "x", 1, 0, 1, 1⟩,
   ⟨TokType.OP, "=", 1, 2, 1, 3⟩,
   ⟨TokType.NUMBER, "1", 1, 4, 1, 5⟩,
   ⟨TokType.NEWLINE, "\n", 1, 5, 1, 6⟩,
   ⟨TokType.COMMENT, "#!later", 2, 0, 2, 7⟩,
   ⟨TokType.NL, "\n", 2, 7, 2, 8⟩,
   ⟨TokType.ENDMARKER, "", 3, 0, 3, 0⟩]

/-- Token sequence of `tokenize.generate_tokens` for the file content
`x = 1  # noqa\n# gone\n`. -/
def tokensNoqa : List Tok :=
  [⟨TokType.NAME, "x", 1, 0, 1, 1⟩,
   ⟨TokType.OP, "=", 1, 2, 1, 3⟩,
   ⟨TokType.NUMBER, "1", 1, 4, 1, 5⟩,
   ⟨TokType.COMMENT, "# noqa", 1, 7, 1, 13⟩,
   ⟨TokType.NEWLINE, "\n", 1, 13, 1, 14⟩,
   ⟨TokType.COMMENT, "# gone", 2, 0, 2, 6⟩,
   ⟨TokType.NL, "\n", 2, 6, 2, 7⟩,
   ⟨TokType.ENDMARKER, "", 3, 0, 3, 0⟩]

/-- Token sequence of `tokenize.generate_tokens` for the rewritten
content `x = 1  # noqa\n\n` produced by the first run on `tokensNoqa`. -/
def tokensNoqaClean : List Tok :=
  [⟨TokType.NAME, "x", 1, 0, 1, 1⟩,
   ⟨TokType.OP, "=", 1, 2, 1, 3⟩,
   ⟨TokType.NUMBER, "1", 1, 4, 1, 5⟩,
   ⟨TokType.COMMENT, "# noqa", 1, 7, 1, 13⟩,
   ⟨TokType.NEWLINE, "\n", 1, 13, 1, 14⟩,
   ⟨TokType.NL, "\n", 2, 0, 2, 1⟩,
   ⟨TokType.ENDMARKER, "", 3, 0, 3, 0⟩]

/-- Token sequence of `tokenize.generate_tokens` for the file content
`x = 1  # c\n`. -/
def tokensSimple : List Tok :=
  [⟨TokType.NAME, "x", 1, 0, 1, 1⟩,
   ⟨TokType.OP, "=", 1, 2, 1, 3⟩,
   ⟨TokType.NUMBER, "1", 1, 4, 1, 5⟩,
   ⟨TokType.COMMENT, "# c", 1, 7, 1, 10⟩,
   ⟨TokType.NEWLINE, "\n", 1, 10, 1, 11⟩,
   ⟨TokType.ENDMARKER, "", 2, 0, 2, 0⟩]

/-- Texts of the comment tokens kept by the filter, in order. -/
def keptCommentStrings (p : String) (ts : List Tok) : List String :=
  ((filterTokens p ts).1.filter (fun t => t.typ == TokType.COMMENT)).map Tok.str

/-- Token sequence exercising the no-op branch: dropping the comment
reconstructs exactly the normalized original text. -/
def tokensNoop : List Tok :=
  [⟨TokType.NAME, "x", 1, 0, 1, 1⟩,
   ⟨TokType.OP, "=", 1, 2, 1, 3⟩,
   ⟨TokType.NUMBER, "1", 1, 4, 1, 5⟩,
   ⟨TokType.NEWLINE, "\n", 1, 5, 1, 6⟩,
   ⟨TokType.COMMENT, "# gone", 2, 0, 2, 6⟩,
   ⟨TokType.ENDMARKER, "", 3, 0, 3, 0⟩]

/-- Token sequence whose kept tokens are out of order, which makes
`Untokenizer.add_whitespace` raise `ValueError`. -/
def tokensOutOfOrder : List Tok :=
  [⟨TokType.NAME, "a", 2, 0, 2, 1⟩,
   ⟨TokType.NAME, "b", 1, 0, 1, 1⟩,
   ⟨TokType.COMMENT, "# x", 3, 0, 3, 3⟩]

/-- Batch entry for a well-formed Python file with one removable
comment. -/
def bfGood : BatchFile :=
  ⟨"a.py", "x = 1  # c\n", okEnv tokensSimple, WriteEvent.success⟩

/-- Batch entry for a Python file whose open/read raises an I/O error. -/
def bfBad : BatchFile :=
  ⟨"b.py", "y = 2\n", ⟨true, false, false, false, []⟩, WriteEvent.success⟩

instance : DecidableEq (Except Unit String) := fun a b =>
  match a, b with
  | Except.error x, Except.error y => isTrue (congrArg Except.error (Subsingleton.elim x y))
  | Except.ok x, Except.ok y =>
    if h : x = y then isTrue (congrArg Except.ok h)
    else isFalse (fun hc => h (Except.ok.inj hc))
  | Except.error _, Except.ok _ => isFalse (fun hc => Except.noConfusion hc)
  | Except.ok _, Except.error _ => isFalse (fun hc => Except.noConfusion hc)

example : is_preserved_comment "#!/usr/bin/env python" = true := by decide

example : is_preserved_comment "# -*- coding: utf-8 -*-" = true := by decide

example : is_preserved_comment "# coding: utf-8" = true := by decide

example : is_preserved_comment " # type: list[int]" = true := by decide

example : is_preserved_comment "# NOQA: E501" = true := by decide

example : is_preserved_comment "# This is a regular comment" = false := by decide

example : is_preserved_comment "# CODING: utf-8" = false := by decide

example : normalizeText "x = 1     \r\n" = "x = 1\n" := by decide

example : normalizeText "a  \nb\n" = "a\nb\n" := by decide

example :
    remove_hash_comments "f.py" "print(\"x\")  # drop me\n# also drop\n"
      (okEnv tokensScenario) WriteEvent.success
    = (some [⟨"f.py", 1, "# drop me"⟩, ⟨"f.py", 2, "# also drop"⟩],
       "print(\"x\")\n\n") := by decide

example :
    remove_hash_comments "f.py" "x = 1  # c\r\n" (okEnv tokensCrlf) WriteEvent.success
    = (some [⟨"f.py", 1, "# c"⟩], "x = 1\n") := by decide

example :
    remove_hash_comments "f.py" "x = 1\n#!later\n"
      (okEnv tokensShebangLater) WriteEvent.success
    = (some [], "x = 1\n#!later\n") := by decide

example :
    remove_hash_comments "f.py" "x = 1  # noqa\n# gone\n"
      (okEnv tokensNoqa) WriteEvent.success
    = (some [⟨"f.py", 2, "# gone"⟩], "x = 1  # noqa\n\n") := by decide

example :
    remove_hash_comments "f.py" "x = 1  # noqa\n\n"
      (okEnv tokensNoqaClean) WriteEvent.success
    = (some [], "x = 1  # noqa\n\n") := by decide

example :
    remove_hash_comments "f.py" "x = 1  # c\n" (okEnv tokensSimple) (WriteEvent.failAfter 0)
    = (some [⟨"f.py", 1, "# c"⟩], "") := by decide

example :
    remove_hash_comments "f.py" "x = 1  # c\n" (okEnv tokensSimple) WriteEvent.openFail
    = (some [⟨"f.py", 1, "# c"⟩], "x = 1  # c\n") := by decide

lemma toNat_ofNat_valid (n : Nat) (h : n.isValidChar) : (Char.ofNat n).toNat = n := by
  simp only [Char.ofNat, dif_pos h, Char.ofNatAux, Char.toNat, UInt32.toNat]
  simp

lemma pyIsSpace_pyLowerChar (c : Char) : pyIsSpace (pyLowerChar c) = pyIsSpace c := by
  unfold pyLowerChar
  by_cases h : 65 ≤ c.toNat ∧ c.toNat ≤ 90
  · rw [if_pos h]
    have hv : (c.toNat + 32).isValidChar := Or.inl (by omega)
    have ht : (Char.ofNat (c.toNat + 32)).toNat = c.toNat + 32 := toNat_ofNat_valid _ hv
    have h1 : pyIsSpace (Char.ofNat (c.toNat + 32)) = false := by
      unfold pyIsSpace
      rw [ht]
      simp only [Bool.or_eq_false_iff, Bool.and_eq_false_iff, decide_eq_false_iff_not,
        beq_eq_false_iff_ne, ne_eq]
      omega
    have h2 : pyIsSpace c = false := by
      unfold pyIsSpace
      simp only [Bool.or_eq_false_iff, Bool.and_eq_false_iff, decide_eq_false_iff_not,
        beq_eq_false_iff_ne, ne_eq]
      omega
    rw [h1, h2]
  · rw [if_neg h]

lemma map_rdropWhile {α β : Type} (f : α → β) (P : β → Bool) (l : List α) :
    (l.map f).rdropWhile P = (l.rdropWhile (fun a => P (f a))).map f := by
  simp only [List.rdropWhile]
  rw [← List.map_reverse, List.dropWhile_map, List.map_reverse]
  rfl

lemma prefix_rdropWhile {α : Type} (P : α → Bool) (pat l : List α) (c : α)
    (hlast : pat.getLast? = some c) (hPc : P c = false) (h : pat <+: l) :
    pat <+: l.rdropWhile P := by
  induction l using List.reverseRecOn with
  | nil =>
    rw [List.prefix_nil] at h
    subst h
    simp at hlast
  | append_singleton l a ih =>
    by_cases hPa : P a
    · rw [List.rdropWhile_concat, if_pos hPa]
      apply ih
      obtain ⟨t, ht⟩ := h
      rcases List.eq_nil_or_concat t with rfl | ⟨t', b, rfl⟩
      · rw [List.append_nil] at ht
        rw [ht, List.getLast?_concat] at hlast
        cases hlast
        rw [hPc] at hPa
        exact absurd hPa (by simp)
      · rw [List.concat_eq_append, ← List.append_assoc] at ht
        have hd := congrArg List.dropLast ht
        simp only [List.dropLast_concat] at hd
        exact ⟨t', hd⟩
    · rw [List.rdropWhile_concat, if_neg hPa]
      exact h

lemma infix_rdropWhile {α : Type} (P : α → Bool) (pat l : List α) (c : α)
    (hlast : pat.getLast? = some c) (hPc : P c = false) (h : pat <:+: l) :
    pat <:+: l.rdropWhile P := by
  induction l using List.reverseRecOn with
  | nil =>
    rw [List.infix_nil] at h
    subst h
    simp at hlast
  | append_singleton l a ih =>
    by_cases hPa : P a
    · rw [List.rdropWhile_concat, if_pos hPa]
      apply ih
      obtain ⟨s, t, hst⟩ := h
      rcases List.eq_nil_or_concat t with rfl | ⟨t', b, rfl⟩
      · rw [List.append_nil] at hst
        have hpne : pat ≠ [] := by
          rintro rfl
          simp at hlast
        have hg : (s ++ pat).getLast? = some a := by rw [hst, List.getLast?_concat]
        rw [List.getLast?_append_of_ne_nil s hpne, hlast] at hg
        cases hg
        rw [hPc] at hPa
        exact absurd hPa (by simp)
      · rw [List.concat_eq_append, ← List.append_assoc] at hst
        have hd := congrArg List.dropLast hst
        simp only [List.dropLast_concat] at hd
        exact ⟨s, t', hd⟩
    · rw [List.rdropWhile_concat, if_neg hPa]
      exact h

lemma pyLower_pyRstripWs (s : String) : pyLower (pyRstripWs s) = pyRstripWs (pyLower s) := by
  unfold pyLower pyRstripWs
  apply congrArg String.mk
  rw [map_rdropWhile]
  have : (fun a => pyIsSpace (pyLowerChar a)) = pyIsSpace := by
    funext c
    exact pyIsSpace_pyLowerChar c
  rw [this]

lemma pyStrip_pyRstripWs (s : String) : pyStrip (pyRstripWs s) = pyStrip s := by
  unfold pyStrip pyRstripWs
  apply congrArg String.mk
  show ((s.data.rdropWhile pyIsSpace).rdropWhile pyIsSpace).dropWhile pyIsSpace
      = (s.data.rdropWhile pyIsSpace).dropWhile pyIsSpace
  rw [List.rdropWhile_idempotent]

/-- Stripping trailing whitespace from a comment never changes its
classification from preserved to removable: each preservation pattern
ends in a non-whitespace character. -/
lemma is_preserved_comment_pyRstripWs (s : String)
    (h : is_preserved_comment s = true) :
    is_preserved_comment (pyRstripWs s) = true := by
  unfold is_preserved_comment pyStartsWith pyContains at h ⊢
  simp only [Bool.or_eq_true, decide_eq_true_eq] at h ⊢
  rw [pyLower_pyRstripWs, pyStrip_pyRstripWs,
    show (pyRstripWs s).data = s.data.rdropWhile pyIsSpace from rfl,
    show (pyRstripWs (pyLower s)).data = (pyLower s).data.rdropWhile pyIsSpace from rfl]
  rcases h with ((((h | h) | h) | h) | h)
  · exact Or.inl (Or.inl (Or.inl (Or.inl
      (prefix_rdropWhile pyIsSpace _ _ '!' (by decide) (by decide) h))))
  · exact Or.inl (Or.inl (Or.inl (Or.inr
      (infix_rdropWhile pyIsSpace _ _ ':' (by decide) (by decide) h))))
  · exact Or.inl (Or.inl (Or.inr
      (infix_rdropWhile pyIsSpace _ _ ':' (by decide) (by decide) h)))
  · exact Or.inl (Or.inr h)
  · exact Or.inr (infix_rdropWhile pyIsSpace _ _ 'a' (by decide) (by decide) h)

/-- Comment tokens survive the filter only when they are classified as
preserved. -/
lemma is_preserved_of_mem_kept (p : String) (ts : List Tok) (t : Tok)
    (ht : t ∈ (filterTokens p ts).1) (hc : t.typ = TokType.COMMENT) :
    is_preserved_comment t.str = true := by
  induction ts with
  | nil => simp [filterTokens] at ht
  | cons u rest ih =>
    simp only [filterTokens] at ht
    by_cases h1 : u.typ = TokType.COMMENT
    · rw [if_pos h1] at ht
      by_cases h2 : is_preserved_comment u.str
      · rw [if_pos h2] at ht
        rcases List.mem_cons.mp ht with rfl | ht
        · exact h2
        · exact ih ht
      · rw [if_neg h2] at ht
        exact ih ht
    · rw [if_neg h1] at ht
      by_cases h3 : u.typ = TokType.ENCODING
      · rw [if_pos h3] at ht
        exact ih ht
      · rw [if_neg h3] at ht
        rcases List.mem_cons.mp ht with rfl | ht
        · exact absurd hc h1
        · exact ih ht

/-- When every comment token of a sequence is preserved, the filter
produces no removal records. -/
lemma filterTokens_no_removals (p : String) (ts : List Tok)
    (h : ∀ t ∈ ts, t.typ = TokType.COMMENT → is_preserved_comment t.str = true) :
    (filterTokens p ts).2 = [] := by
  induction ts with
  | nil => rfl
  | cons u rest ih =>
    have hrest : (filterTokens p rest).2 = [] :=
      ih (fun t htm => h t (List.mem_cons_of_mem u htm))
    simp only [filterTokens]
    by_cases h1 : u.typ = TokType.COMMENT
    · rw [if_pos h1, if_pos (h u (List.mem_cons_self u rest) h1)]
      exact hrest
    · rw [if_neg h1]
      by_cases h3 : u.typ = TokType.ENCODING
      · rw [if_pos h3]
        exact hrest
      · rw [if_neg h3]
        exact hrest

/-- With no read-stage failure and no removable comment, the function
returns the empty record list and performs no write. -/
lemma remove_hash_comments_no_removals (p disk : String) (env : FileEnv) (wev : WriteEvent)
    (hio : env.ioErr = false) (hde : env.decodeErr = false)
    (hsy : env.syntaxErr = false) (hto : env.tokenizeErr = false)
    (hrem : (filterTokens p env.tokens).2 = []) :
    remove_hash_comments p disk env wev = (some [], disk) := by
  unfold remove_hash_comments
  rw [hio, hde, hsy, hto]
  simp only [Bool.false_eq_true, if_false]
  rw [if_pos hrem]

/-- Lines produced by `splitlinesAux` contain no line-break characters
(provided the accumulator contains none). -/
lemma splitlinesAux_no_break (cs cur : List Char) :
    (∀ c ∈ cur, pyIsLineBreak c = false) →
    ∀ l ∈ splitlinesAux cs cur, ∀ c ∈ l.data, pyIsLineBreak c = false := by
  induction cs, cur using splitlinesAux.induct with
  | case1 cur hemp =>
    intro hcur l hl
    rw [splitlinesAux.eq_1, if_pos hemp] at hl
    simp at hl
  | case2 cur hemp =>
    intro hcur l hl
    rw [splitlinesAux.eq_1, if_neg hemp] at hl
    simp only [List.mem_singleton] at hl
    subst hl
    intro c hc
    exact hcur c (List.mem_reverse.mp hc)
  | case3 rest cur ih =>
    intro hcur l hl
    rw [splitlinesAux.eq_2] at hl
    rcases List.mem_cons.mp hl with rfl | hl
    · intro c hc
      exact hcur c (List.mem_reverse.mp hc)
    · exact ih (by simp) l hl
  | case4 c0 rest cur hne hbrk ih =>
    intro hcur l hl
    rw [splitlinesAux.eq_3 cur c0 rest hne, if_pos hbrk] at hl
    rcases List.mem_cons.mp hl with rfl | hl
    · intro c hc
      exact hcur c (List.mem_reverse.mp hc)
    · exact ih (by simp) l hl
  | case5 c0 rest cur hne hbrk ih =>
    intro hcur l hl
    rw [splitlinesAux.eq_3 cur c0 rest hne, if_neg hbrk] at hl
    refine ih ?_ l hl
    intro c hc
    rcases List.mem_cons.mp hc with rfl | hc
    · exact Bool.not_eq_true _ ▸ (by simpa using hbrk)
    · exact hcur c hc

/-- Characters surviving a trailing-whitespace strip were in the original
string. -/
lemma mem_of_mem_pyRstripWs (s : String) (c : Char) (hc : c ∈ (pyRstripWs s).data) :
    c ∈ s.data := by
  have hpre : (pyRstripWs s).data <+: s.data := List.rdropWhile_prefix pyIsSpace s.data
  exact hpre.sublist.mem hc

/-- Joining carriage-return-free lines with `\n` stays carriage-return
free. -/
lemma cr_not_mem_pyJoinNl (ls : List String) (h : ∀ l ∈ ls, '\r' ∉ l.data) :
    '\r' ∉ (pyJoinNl ls).data := by
  induction ls with
  | nil => simp [pyJoinNl]
  | cons l rest ih =>
    cases rest with
    | nil =>
      simpa [pyJoinNl] using h l (List.mem_cons_self l [])
    | cons m rest2 =>
      simp only [pyJoinNl, String.data_append, List.mem_append]
      push_neg
      refine ⟨⟨h l (List.mem_cons_self l (m :: rest2)), by decide⟩, ?_⟩
      exact ih (fun x hx => h x (List.mem_cons_of_mem l hx))

/-- The text written by the pipeline never contains a carriage return:
line splitting removes every line-break character and the pieces are
rejoined with `\n` alone. -/
lemma cr_not_mem_normalizeText (s : String) : '\r' ∉ (normalizeText s).data := by
  unfold normalizeText
  simp only [String.data_append, List.mem_append]
  push_neg
  constructor
  · apply cr_not_mem_pyJoinNl
    intro l hl
    obtain ⟨l0, hl0, rfl⟩ := List.mem_map.mp hl
    intro hc
    have hc0 := mem_of_mem_pyRstripWs l0 '\r' hc
    have := splitlinesAux_no_break s.data [] (by simp) l0 hl0 '\r' hc0
    simp [pyIsLineBreak] at this
  · decide

/-- C3 counterexample: the comment `#!later` on line 2 of
`x = 1\n#!later\n` is classified as preserved and kept — zero removal
records, file untouched — although it is not the file's first token;
the shebang check of `is_preserved_comment` ignores position. -/
theorem C3_counterexample :
    is_preserved_comment "#!later" = true ∧
    remove_hash_comments "f.py" "x = 1\n#!later\n"
      (okEnv tokensShebangLater) WriteEvent.success
      = (some [], "x = 1\n#!later\n") := by
  exact ⟨by decide, by decide⟩

/-- C3 (amended): a comment whose text starts with `#!` is preserved by
the filter wherever it occurs in the token sequence; the shebang check
is a pure text test with no position condition. -/
theorem C3_shebang_preserved_anywhere (p : String) (ts : List Tok) (t : Tok)
    (htm : t ∈ ts) (hc : t.typ = TokType.COMMENT)
    (hsb : pyStartsWith t.str "#!" = true) :
    t ∈ (filterTokens p ts).1 := by
  have hpres : is_preserved_comment t.str = true := by
    unfold is_preserved_comment
    rw [hsb]
    simp
  induction ts with
  | nil => simp at htm
  | cons u rest ih =>
    simp only [filterTokens]
    rcases List.mem_cons.mp htm with rfl | htm2
    · rw [if_pos hc, if_pos hpres]
      exact List.mem_cons_self _ _
    · have hmem := ih htm2
      by_cases h1 : u.typ = TokType.COMMENT
      · rw [if_pos h1]
        by_cases h2 : is_preserved_comment u.str = true
        · rw [if_pos h2]
          exact List.mem_cons_of_mem u hmem
        · rw [if_neg h2]
          exact hmem
      · rw [if_neg h1]
        by_cases h3 : u.typ = TokType.ENCODING
        · rw [if_pos h3]
          exact hmem
        · rw [if_neg h3]
          exact List.mem_cons_of_mem u hmem

/-- C3 witness: the amended rule applied to the concrete line-2 shebang
comment of `tokensShebangLater`. -/
theorem C3_shebang_witness :
    (⟨TokType.COMMENT, "#!later", 2, 0, 2, 7⟩ : Tok)
      ∈ (filterTokens "f.py" tokensShebangLater).1 :=
  C3_shebang_preserved_anywhere "f.py" tokensShebangLater _ (by decide) rfl (by decide)

/-- C4 counterexample: `# CODING: utf-8` contains the encoding pattern
`# coding:` up to letter case, yet `is_preserved_comment` classifies it
as removable — the coding-declaration checks test the raw text, not the
lowercased text. -/
theorem C4_counterexample :
    is_preserved_comment "# CODING: utf-8" = false ∧
    pyContains (pyLower "# CODING: utf-8") "# coding:" = true := by
  exact ⟨by decide, by decide⟩

/-- C4 (amended): only the `# type:` and `# noqa` checks of
`is_preserved_comment` are case-insensitive; the two coding-declaration
checks are case-sensitive substring tests on the raw comment, so
`# coding:` is preserved but `# CODING:` is not. -/
theorem C4_keyword_case_sensitivity :
    (∀ c : String, pyContains (pyLower c) "# noqa" = true →
      is_preserved_comment c = true) ∧
    (∀ c : String, pyStartsWith (pyStrip (pyLower c)) "# type:" = true →
      is_preserved_comment c = true) ∧
    is_preserved_comment "# coding: utf-8" = true ∧
    is_preserved_comment "# -*- coding: utf-8 -*-" = true ∧
    is_preserved_comment "# CODING: utf-8" = false := by
  refine ⟨?_, ?_, by decide, by decide, by decide⟩
  · intro c h
    simp only [is_preserved_comment]
    rw [h]
    simp
  · intro c h
    simp only [is_preserved_comment]
    rw [h]
    simp

/-- C4 witness: the two case-insensitive rules applied to concrete
upper-case comments. -/
theorem C4_keyword_witness :
    is_preserved_comment "# NOQA: E501" = true ∧
    is_preserved_comment "  # TYPE: ignore" = true :=
  ⟨C4_keyword_case_sensitivity.1 "# NOQA: E501" (by decide),
   C4_keyword_case_sensitivity.2.1 "  # TYPE: ignore" (by decide)⟩

/-- C5 counterexample: on `print("x")  # drop me\n# also drop\n` the
pipeline produces the two expected records but writes
`print("x")\n\n` — the comment-only line 2 survives as an empty line —
not `print("x")\n` as claimed. -/
theorem C5_counterexample :
    remove_hash_comments "f.py" "print(\"x\")  # drop me\n# also drop\n"
      (okEnv tokensScenario) WriteEvent.success
      = (some [⟨"f.py", 1, "# drop me"⟩, ⟨"f.py", 2, "# also drop"⟩],
         "print(\"x\")\n\n") ∧
    ("print(\"x\")\n\n" : String) ≠ "print(\"x\")\n" := by
  exact ⟨by decide, by decide⟩

/-- C5 (amended): the scenario yields exactly two removal records on
lines 1 and 2, and the content written back is `print("x")\n\n`: the
code line keeps its text, while the removed comment-only line remains
as an empty line. -/
theorem C5_scenario :
    remove_hash_comments "f.py" "print(\"x\")  # drop me\n# also drop\n"
      (okEnv tokensScenario) WriteEvent.success
      = (some [⟨"f.py", 1, "# drop me"⟩, ⟨"f.py", 2, "# also drop"⟩],
         "print(\"x\")\n\n") := by
  decide

/-- C8 counterexample: the CRLF-terminated file `x = 1  # c\r\n` is
rewritten as `x = 1\n` — the original line-ending convention is not
preserved; every line ending becomes a bare `\n`. -/
theorem C8_counterexample :
    remove_hash_comments "f.py" "x = 1  # c\r\n"
      (okEnv tokensCrlf) WriteEvent.success
      = (some [⟨"f.py", 1, "# c"⟩], "x = 1\n") ∧
    pyContains "x = 1  # c\r\n" "\r\n" = true ∧
    pyContains "x = 1\n" "\r" = false := by
  exact ⟨by decide, by decide, by decide⟩

/-- C8 (amended): whenever `remove_hash_comments` modifies the file at
all, the new content contains no carriage return — the write uses the
resolved encoding with newline translation disabled and every line
ending of the reconstructed text has been normalized to `\n`,
regardless of the original convention. -/
theorem C8_written_text_has_lf_endings (p disk : String) (env : FileEnv) (wev : WriteEvent) :
    (remove_hash_comments p disk env wev).2 = disk ∨
    '\r' ∉ (remove_hash_comments p disk env wev).2.data := by
  simp only [remove_hash_comments]
  split
  · exact Or.inl rfl
  split
  · exact Or.inl rfl
  split
  · exact Or.inl rfl
  split
  · exact Or.inl rfl
  split
  · exact Or.inl rfl
  split
  · exact Or.inl rfl
  split
  · exact Or.inl rfl
  split
  · exact Or.inl rfl
  · refine Or.inr ?_
    intro hmem
    exact cr_not_mem_normalizeText _ (List.mem_of_mem_take hmem)
  · exact Or.inr (cr_not_mem_normalizeText _)

/-- C1: the final write is not all-or-nothing.  Opening the target with
mode "w" truncates it, so a write failure after a successful open leaves
the file truncated (here: empty) rather than with its original content,
while the function still returns the records and reports "Original file
kept"; only a failure of the open itself leaves the original bytes. -/
theorem C1_write_failure_truncates :
    remove_hash_comments "f.py" "x = 1  # c\n" (okEnv tokensSimple)
      (WriteEvent.failAfter 0)
      = (some [⟨"f.py", 1, "# c"⟩], "") ∧
    ("" : String) ≠ "x = 1  # c\n" ∧
    remove_hash_comments "f.py" "x = 1  # c\n" (okEnv tokensSimple)
      WriteEvent.openFail
      = (some [⟨"f.py", 1, "# c"⟩], "x = 1  # c\n") := by
  exact ⟨by decide, by decide, by decide⟩

/-- C6: when at least one comment was dropped but the normalized
reconstruction equals the normalized original, the file is not written
(its content is returned unchanged for every write outcome) and the
non-empty record list is still returned. -/
theorem C6_noop_skips_write (p disk : String) (env : FileEnv) (wev : WriteEvent)
    (hio : env.ioErr = false) (hde : env.decodeErr = false)
    (hsy : env.syntaxErr = false) (hto : env.tokenizeErr = false)
    (hrem : (filterTokens p env.tokens).2 ≠ []) (raw : String)
    (hun : untokenize (filterTokens p env.tokens).1 = Except.ok raw)
    (heq : normalizeText raw = normalizeText disk) :
    remove_hash_comments p disk env wev = (some (filterTokens p env.tokens).2, disk) := by
  simp only [remove_hash_comments, hio, hde, hsy, hto, Bool.false_eq_true, if_false]
  rw [if_neg hrem, hun]
  simp only []
  rw [if_pos heq]

/-- C6 witness: the no-op branch on a concrete environment where the
reconstruction of the kept tokens equals the original `x = 1\n`. -/
theorem C6_noop_witness :
    remove_hash_comments "f.py" "x = 1\n" (okEnv tokensNoop) WriteEvent.success
      = (some [⟨"f.py", 2, "# gone"⟩], "x = 1\n") :=
  (C6_noop_skips_write "f.py" "x = 1\n" (okEnv tokensNoop) WriteEvent.success
    rfl rfl rfl rfl (by decide) "x = 1\n" (by decide) (by decide)).trans (by decide)

/-- C7: when reassembly itself raises, the file is not written — its
content is returned unchanged for every write outcome — and the
non-empty record list is still returned. -/
theorem C7_untokenize_failure_keeps_file (p disk : String) (env : FileEnv) (wev : WriteEvent)
    (hio : env.ioErr = false) (hde : env.decodeErr = false)
    (hsy : env.syntaxErr = false) (hto : env.tokenizeErr = false)
    (hrem : (filterTokens p env.tokens).2 ≠ [])
    (hun : untokenize (filterTokens p env.tokens).1 = Except.error ()) :
    remove_hash_comments p disk env wev = (some (filterTokens p env.tokens).2, disk) := by
  simp only [remove_hash_comments, hio, hde, hsy, hto, Bool.false_eq_true, if_false]
  rw [if_neg hrem, hun]

/-- C7 witness: out-of-order kept tokens make the embedded
`Untokenizer` raise, and the file content is untouched while the record
for the dropped comment is returned. -/
theorem C7_untokenize_witness :
    remove_hash_comments "f.py" "b\na  # x\n" (okEnv tokensOutOfOrder) WriteEvent.success
      = (some [⟨"f.py", 3, "# x"⟩], "b\na  # x\n") :=
  (C7_untokenize_failure_keeps_file "f.py" "b\na  # x\n" (okEnv tokensOutOfOrder)
    WriteEvent.success rfl rfl rfl rfl (by decide) (by decide)).trans (by decide)

/-- C2: running the pipeline a second time on whatever the first run
left on disk yields an empty record list and leaves the content exactly
as the first run left it, provided the second tokenization only
produces comment tokens that are kept comments of the first run with
trailing whitespace stripped — which is what reassembly followed by
per-line `rstrip` produces for the rewritten file. -/
theorem C2_second_run_is_noop (p disk : String) (env1 env2 : FileEnv)
    (wev1 wev2 : WriteEvent)
    (h2io : env2.ioErr = false) (h2de : env2.decodeErr = false)
    (h2sy : env2.syntaxErr = false) (h2to : env2.tokenizeErr = false)
    (hlex : ∀ t ∈ env2.tokens, t.typ = TokType.COMMENT →
      ∃ s ∈ keptCommentStrings p env1.tokens, t.str = pyRstripWs s) :
    remove_hash_comments p (remove_hash_comments p disk env1 wev1).2 env2 wev2
      = (some [], (remove_hash_comments p disk env1 wev1).2) := by
  apply remove_hash_comments_no_removals _ _ _ _ h2io h2de h2sy h2to
  apply filterTokens_no_removals
  intro t htm hc
  obtain ⟨s, hs, hts⟩ := hlex t htm hc
  unfold keptCommentStrings at hs
  obtain ⟨u, hu, hus⟩ := List.mem_map.mp hs
  have huf := List.mem_filter.mp hu
  have hucomment : u.typ = TokType.COMMENT := by simpa using huf.2
  have hpres := is_preserved_of_mem_kept p env1.tokens u huf.1 hucomment
  rw [hts, ← hus]
  exact is_preserved_comment_pyRstripWs _ hpres

/-- C2 witness: first run on `x = 1  # noqa\n# gone\n` removes one
comment and writes `x = 1  # noqa\n\n`; the second run on the real
token sequence of that rewritten content removes nothing and leaves the
content byte-identical. -/
theorem C2_second_run_witness :
    remove_hash_comments "f.py" "x = 1  # noqa\n\n" (okEnv tokensNoqaClean)
      WriteEvent.success
      = (some [], "x = 1  # noqa\n\n") := by
  have h := C2_second_run_is_noop "f.py" "x = 1  # noqa\n# gone\n"
    (okEnv tokensNoqa) (okEnv tokensNoqaClean) WriteEvent.success WriteEvent.success
    rfl rfl rfl rfl (by decide)
  have h2 : (remove_hash_comments "f.py" "x = 1  # noqa\n# gone\n"
      (okEnv tokensNoqa) WriteEvent.success).2 = "x = 1  # noqa\n\n" := by decide
  rw [h2] at h
  exact h

/-- C9: with an empty combined record sequence,
`output_removed_comments` writes no log file, deletes any pre-existing
file at the log path, and returns success. -/
theorem C9_empty_batch_cleans_log (log : Option String) (wev : WriteEvent) :
    output_removed_comments [] log true wev = (true, none) := by
  unfold output_removed_comments
  rw [if_pos rfl]
  cases log <;> rfl

/-- Concatenation law of the batch walk, used to show a failed file in
the middle of a batch does not stop the processing of later files. -/
lemma process_directory_append (a b : List BatchFile) :
    process_directory (a ++ b)
      = ((process_directory a).1 ++ (process_directory b).1,
         (process_directory a).2 + (process_directory b).2) := by
  induction a with
  | nil => simp [process_directory]
  | cons g a ih =>
    rw [List.cons_append]
    simp only [process_directory]
    rw [ih]
    by_cases hg : pyEndsWith (pyLower g.name) ".py" = true
    · rw [if_pos hg, if_pos hg]
      cases hr : (remove_hash_comments g.name g.disk g.env g.wev).1 with
      | none =>
        simp only [Prod.mk.injEq, true_and, and_true]
        omega
      | some info =>
        simp [List.append_assoc]
    · rw [if_neg hg, if_neg hg]

/-- C10: an open/read I/O error makes `remove_hash_comments` return the
failure value `None` with the file bytes untouched, and in a directory
batch such a file is tallied as exactly one failure while every other
file of the batch is still processed and contributes its records. -/
theorem C10_read_error_tallied (pre post : List BatchFile) (f : BatchFile)
    (hio : f.env.ioErr = true)
    (hpy : pyEndsWith (pyLower f.name) ".py" = true) :
    remove_hash_comments f.name f.disk f.env f.wev = (none, f.disk) ∧
    process_directory (pre ++ f :: post)
      = ((process_directory pre).1 ++ (process_directory post).1,
         (process_directory pre).2 + (process_directory post).2 + 1) := by
  have hnone : remove_hash_comments f.name f.disk f.env f.wev = (none, f.disk) := by
    simp only [remove_hash_comments, hio, if_true]
  refine ⟨hnone, ?_⟩
  rw [process_directory_append pre (f :: post)]
  have hf : process_directory (f :: post)
      = ((process_directory post).1, (process_directory post).2 + 1) := by
    simp only [process_directory]
    rw [if_pos hpy, hnone]
  rw [hf]
  refine Prod.ext rfl ?_
  simp only []
  omega

/-- C10 witness: a two-file batch where the second file fails with an
I/O error; the batch reports one failure and keeps the first file's
record. -/
theorem C10_read_error_witness :
    process_directory [bfGood, bfBad] = ([⟨"a.py", 1, "# c"⟩], 1) := by
  have h := (C10_read_error_tallied [bfGood] [] bfBad rfl (by decide)).2
  rw [show ([bfGood] : List BatchFile) ++ [bfBad] = [bfGood, bfBad] from rfl] at h
  rw [h]
  decide

end Rmcom
